import Mathlib

/-!
Verification of the sol-rpc-router routing engine, health monitor, credential
gate and HTTP proxy pipeline.  Rust sources are shallowly embedded: atomic
booleans become plain `Bool` snapshots, the random draw of `gen_range` becomes
an explicit `Nat` argument, Redis and the in-process cache become association
lists, and async effects of the proxy handler become an explicit environment
record of outcomes.
-/

namespace SolRpcRouter

/-- Configured upstream record.  The defining `config.rs` is not under `src/`;
the field shapes are fixed by `src/state.rs`, `src/health.rs` and the config
tests (label, url, optional ws_url, weight). -/
structure Backend where
  label : String
  url : String
  ws_url : Option String
  weight : Nat
deriving DecidableEq, Repr

/-- Runtime upstream: the configured record plus a snapshot of the process-wide
atomic `healthy` flag (src/state.rs `RuntimeBackend`). -/
structure RuntimeBackend where
  config : Backend
  healthy : Bool
deriving DecidableEq, Repr

/-- Rich per-upstream health record (src/health.rs `BackendHealthStatus`).
`last_check_time` is an abstract timestamp. -/
structure BackendHealthStatus where
  healthy : Bool
  last_check_time : Option Nat
  consecutive_failures : Nat
  consecutive_successes : Nat
  last_error : Option String
deriving DecidableEq, Repr

/-- Rust `Default` for `BackendHealthStatus`: optimistic start. -/
def BackendHealthStatus.default : BackendHealthStatus :=
  { healthy := true
    last_check_time := none
    consecutive_failures := 0
    consecutive_successes := 0
    last_error := none }

/-- Health-check configuration.  The defining `config.rs` is not under `src/`;
the fields are fixed by their uses in `src/health.rs`. -/
structure HealthCheckConfig where
  interval_secs : Nat
  timeout_secs : Nat
  method : String
  consecutive_failures_threshold : Nat
  consecutive_successes_threshold : Nat
deriving DecidableEq, Repr

/-- The label-keyed map of rich health records guarded by the RwLock inside
`HealthState` (src/health.rs). -/
abbrev HealthMap := List (String × BackendHealthStatus)

/-- Association-list lookup, mirroring `HashMap::get`. -/
def alistLookup {α : Type} (m : List (String × α)) (k : String) : Option α :=
  (m.find? (fun p => p.1 == k)).map (·.2)

/-- Rust `HealthState::new`: every configured label starts with the default
(optimistic) status. -/
def HealthState.new (backend_labels : List String) : HealthMap :=
  backend_labels.map (fun label => (label, BackendHealthStatus.default))

/-- Rust `HealthState::get_status`. -/
def HealthState.get_status (m : HealthMap) (label : String) :
    Option BackendHealthStatus :=
  alistLookup m label

/-- Rust `HealthState::update_status`: `get_mut` only rewrites an entry that is
already present; an absent label is silently ignored. -/
def HealthState.update_status (m : HealthMap) (label : String)
    (status : BackendHealthStatus) : HealthMap :=
  m.map (fun p => if p.1 == label then (p.1, status) else p)

/-- Routing-table snapshot (src/state.rs `RouterState`). -/
structure RouterState where
  backends : List RuntimeBackend
  method_routes : List (String × String)
  health_map : HealthMap
  proxy_timeout_secs : Nat
deriving Repr

/-- The weighted walk of `select_backend`: decrement the drawn weight by each
backend's weight, returning the first backend whose weight exceeds what is
left of the draw (src/state.rs lines 94-99). -/
def weightedWalk : List RuntimeBackend → Nat → Option (String × String)
  | [], _ => none
  | b :: rest, r =>
    if r < b.config.weight then some (b.config.label, b.config.url)
    else weightedWalk rest (r - b.config.weight)

/-- The method-override probe of `select_backend` (src/state.rs lines 49-68):
a hit only when the routed label resolves to an existing backend whose atomic
flag is true; otherwise selection falls through to the weighted stage. -/
def methodOverride (st : RouterState) (rpc_method : Option String) :
    Option (String × String) :=
  match rpc_method with
  | none => none
  | some method =>
    match alistLookup st.method_routes method with
    | none => none
    | some backend_label =>
      match st.backends.find? (fun b => b.config.label == backend_label) with
      | none => none
      | some backend =>
        if backend.healthy then some (backend.config.label, backend.config.url)
        else none

/-- The weighted stage of `select_backend` applied to the healthy set
(src/state.rs lines 77-104): `none` on an empty set, the first backend when
the total weight is zero, otherwise the weighted walk with the code's own
defensive first-backend fallback after the loop. -/
def weightedSelectFrom (healthy_backends : List RuntimeBackend) (r : Nat) :
    Option (String × String) :=
  if healthy_backends.isEmpty then none
  else
    let healthy_total_weight := (healthy_backends.map (fun b => b.config.weight)).sum
    if healthy_total_weight = 0 then
      healthy_backends.head?.map (fun b => (b.config.label, b.config.url))
    else
      match weightedWalk healthy_backends r with
      | some result => some result
      | none => healthy_backends.head?.map (fun b => (b.config.label, b.config.url))

/-- Rust `AppState::select_backend` (src/state.rs lines 45-105).  The uniform draw
`rng.gen_range(0..healthy_total_weight)` is passed in as `r`; the Rust code
only ever sees `r < healthy_total_weight`. -/
def select_backend (st : RouterState) (rpc_method : Option String) (r : Nat) :
    Option (String × String) :=
  match methodOverride st rpc_method with
  | some result => some result
  | none => weightedSelectFrom (st.backends.filter (fun b => b.healthy)) r

/-- One step of the `select_ws_backend` walk.  The `ws_url.as_ref().unwrap()`
of the Rust code is a panic when `ws_url` is absent, recorded explicitly. -/
inductive WsPick where
  | panic : WsPick
  | sel : String → String → WsPick
deriving DecidableEq, Repr

/-- Outcome of `select_ws_backend`, with the two Rust panic sites
(`gen_range` on an empty range, `ws_url` unwrap) made explicit. -/
inductive WsResult where
  | panic : WsResult
  | noneAvailable : WsResult
  | selected : String → String → WsResult
deriving DecidableEq, Repr

/-- The weighted walk of `select_ws_backend` (src/state.rs lines 129-137). -/
def wsWalk : List RuntimeBackend → Nat → Option WsPick
  | [], _ => none
  | b :: rest, r =>
    if r < b.config.weight then
      some (match b.config.ws_url with
            | some u => WsPick.sel b.config.label u
            | none => WsPick.panic)
    else wsWalk rest (r - b.config.weight)

/-- The body of `select_ws_backend` after the filter (src/state.rs lines
118-145).  Unlike `weightedSelectFrom` there is no zero-total-weight guard:
`gen_range(0..0)` panics, recorded as `WsResult.panic`, as does the
`ws_url.unwrap()` of the fallback. -/
def wsSelectFrom (ws_backends : List RuntimeBackend) (r : Nat) : WsResult :=
  if ws_backends.isEmpty then WsResult.noneAvailable
  else
    let total_weight := (ws_backends.map (fun b => b.config.weight)).sum
    if total_weight = 0 then WsResult.panic
    else
      match wsWalk ws_backends r with
      | some (WsPick.sel label u) => WsResult.selected label u
      | some WsPick.panic => WsResult.panic
      | none =>
        match ws_backends.head? with
        | none => WsResult.noneAvailable
        | some b =>
          match b.config.ws_url with
          | some u => WsResult.selected b.config.label u
          | none => WsResult.panic

/-- Rust `AppState::select_ws_backend` (src/state.rs lines 108-146). -/
def select_ws_backend (st : RouterState) (r : Nat) : WsResult :=
  wsSelectFrom (st.backends.filter (fun b => b.config.ws_url.isSome && b.healthy)) r

/-- The per-backend body of `health_check_loop` (src/health.rs lines 137-177):
fold one probe result into the current rich status.  `now` abstracts
`SystemTime::now()`. -/
def healthCheckStep (cur : BackendHealthStatus) (check_result : Except String Unit)
    (cfg : HealthCheckConfig) (now : Nat) : BackendHealthStatus :=
  let updated :=
    match check_result with
    | Except.ok _ =>
      let s := { cur with
        consecutive_successes := cur.consecutive_successes + 1
        consecutive_failures := 0
        last_error := none }
      if cfg.consecutive_successes_threshold ≤ s.consecutive_successes then
        { s with healthy := true }
      else s
    | Except.error e =>
      let s := { cur with
        consecutive_failures := cur.consecutive_failures + 1
        consecutive_successes := 0
        last_error := some e }
      if cfg.consecutive_failures_threshold ≤ s.consecutive_failures then
        { s with healthy := false }
      else s
  { updated with last_check_time := some now }

/-- Credential metadata returned by the keystore (src/keystore.rs `KeyInfo`). -/
structure KeyInfo where
  owner : String
  rate_limit : Nat
deriving DecidableEq, Repr

/-- The Redis hash stored under `api_key:<key>`.  Per the persisted-state
contract, `owner` and `rate_limit` are always written by the admin tool;
`active` may be absent or unreadable, captured by `Option`
(the code reads it with `unwrap_or("true")`). -/
structure StoredKey where
  owner : String
  rate_limit : Nat
  active : Option String
deriving DecidableEq, Repr

/-- The external Redis store of `api_key:<key>` hashes. -/
abbrev KeyRedis := List (String × StoredKey)

/-- The in-process moka cache: an entry of `none` is a cached tombstone for an
unknown or inactive key. -/
abbrev KeyCache := List (String × Option KeyInfo)

/-- The Redis `rate_limit:<key>` counters (value before the next increment). -/
abbrev RateCounters := List (String × Nat)

/-- Insertion with replace semantics for association lists: the new binding
shadows any previous one under `alistLookup`. -/
def alistInsert {α : Type} (m : List (String × α)) (k : String) (v : α) :
    List (String × α) :=
  (k, v) :: m

/-- Rust `RedisKeyStore::get_key_info` (src/keystore.rs lines 34-89): cache probe,
then EXISTS, then field reads; unknown or `active == "false"` keys cache a
tombstone; otherwise the metadata is cached.  Returns the looked-up value and
the updated cache. -/
def get_key_info (store : KeyRedis) (cache : KeyCache) (key : String) :
    Option KeyInfo × KeyCache :=
  match alistLookup cache key with
  | some info => (info, cache)
  | none =>
    match alistLookup store key with
    | none => (none, alistInsert cache key none)
    | some rec =>
      if rec.active.getD "true" == "false" then
        (none, alistInsert cache key none)
      else
        let info : KeyInfo := { owner := rec.owner, rate_limit := rec.rate_limit }
        (some info, alistInsert cache key (some info))

/-- Rust `RedisKeyStore::check_rate_limit` (src/keystore.rs lines 91-126): the Lua
script atomically increments the per-key counter; the request is allowed iff
the post-increment count does not exceed the limit. -/
def check_rate_limit (counters : RateCounters) (key : String) (limit : Nat) :
    Bool × RateCounters :=
  if limit = 0 then (true, counters)
  else
    let count := (alistLookup counters key).getD 0 + 1
    (decide (count ≤ limit), alistInsert counters key count)

/-- Outcome of `validate_key`: Rust `Result<Option<KeyInfo>, String>`. -/
inductive ValidateResult where
  | ok : Option KeyInfo → ValidateResult
  | err : String → ValidateResult
deriving DecidableEq, Repr

/-- Rust `RedisKeyStore::validate_key` (src/keystore.rs lines 131-144). -/
def validate_key (store : KeyRedis) (cache : KeyCache) (counters : RateCounters)
    (key : String) : ValidateResult × KeyCache × RateCounters :=
  let res := get_key_info store cache key
  match res.1 with
  | some info =>
    let rl := check_rate_limit counters key info.rate_limit
    if rl.1 then (ValidateResult.ok (some info), res.2, rl.2)
    else (ValidateResult.err "Rate limit exceeded", res.2, rl.2)
  | none => (ValidateResult.ok none, res.2, counters)

/-- Outcome of the forwarded upstream request inside the `timeout` wrapper
(src/handlers.rs lines 238-263). -/
inductive ForwardOutcome where
  | success : Nat → ForwardOutcome
  | transportError : String → ForwardOutcome
  | timedOut : ForwardOutcome
deriving DecidableEq, Repr

/-- Environment of one `proxy` handler invocation: the parsed `api-key` query
parameter and the outcomes of each effect the handler performs. -/
structure ProxyEnv where
  api_key : Option String
  validate : ValidateResult
  selection : Option (String × String)
  uri_ok : Bool
  forward : ForwardOutcome
deriving DecidableEq, Repr

/-- A proxy response together with whether the handler reached the forwarding
step (so the upstream was contacted). -/
structure ProxyResponse where
  status : Nat
  upstream_contacted : Bool
deriving DecidableEq, Repr

/-- The `proxy` handler control flow (src/handlers.rs lines 131-263): auth,
rate limit, backend selection, URI construction, forward with deadline,
pass-through of the upstream status. -/
def proxy (env : ProxyEnv) : ProxyResponse :=
  match env.api_key with
  | none => { status := 401, upstream_contacted := false }
  | some _ =>
    match env.validate with
    | ValidateResult.ok none => { status := 401, upstream_contacted := false }
    | ValidateResult.err e =>
      if e == "Rate limit exceeded" then
        { status := 429, upstream_contacted := false }
      else
        { status := 500, upstream_contacted := false }
    | ValidateResult.ok (some _) =>
      match env.selection with
      | none => { status := 503, upstream_contacted := false }
      | some _ =>
        if env.uri_ok then
          match env.forward with
          | ForwardOutcome.success s => { status := s, upstream_contacted := true }
          | ForwardOutcome.transportError _ => { status := 502, upstream_contacted := true }
          | ForwardOutcome.timedOut => { status := 504, upstream_contacted := true }
        else
          { status := 500, upstream_contacted := false }

/-- Rust `str::trim_end_matches` with a slash: drop every trailing slash. -/
def trimEndSlashes (s : String) : String :=
  String.mk ((s.data.reverse.dropWhile (fun c => c == '/')).reverse)

/-- Character-level splitter, the semantics of Rust `str::split(sep)`. -/
def splitChar (sep : Char) : List Char → List Char → List String
  | [], acc => [String.mk acc.reverse]
  | c :: cs, acc =>
    if c == sep then String.mk acc.reverse :: splitChar sep cs []
    else splitChar sep cs (c :: acc)

/-- Rust `q.split('&')`. -/
def splitAmp (s : String) : List String :=
  splitChar '&' s.data []

/-- Rust `Vec::join("&")`. -/
def joinAmp : List String → String
  | [] => ""
  | [s] => s
  | s :: rest => s ++ "&" ++ joinAmp rest

/-- Rust `str::starts_with`, via the character list. -/
def strStartsWith (s pat : String) : Bool :=
  pat.data.isPrefixOf s.data

/-- Rust `str::ends_with`, via the character list. -/
def strEndsWith (s pat : String) : Bool :=
  pat.data.isSuffixOf s.data

/-- Rust `&s[n..]` on character boundaries. -/
def strDrop (s : String) (n : Nat) : String :=
  String.mk (s.data.drop n)

/-- The outbound query cleaning of `proxy` (src/handlers.rs lines 182-191):
split on `&`, drop every parameter starting with `api-key=`, re-join. -/
def stripApiKeyParams (q : String) : String :=
  joinAmp ((splitAmp q).filter (fun p => !(strStartsWith p "api-key=")))

/-- Rust `cleaned_request_path` (src/handlers.rs lines 193-197). -/
def cleanedRequestPath (path : String) (query : Option String) : String :=
  let cleaned_query := (query.map stripApiKeyParams).getD ""
  if cleaned_query = "" then path else path ++ "?" ++ cleaned_query

/-- The outbound URI string built by `proxy` (src/handlers.rs lines 200-208). -/
def buildBackendUri (backend_url path : String) (query : Option String) : String :=
  let cleaned_request_path := cleanedRequestPath path query
  if cleaned_request_path = "/" then
    trimEndSlashes backend_url
  else if strEndsWith backend_url "/" && strStartsWith cleaned_request_path "/" then
    backend_url ++ strDrop cleaned_request_path 1
  else
    backend_url ++ cleaned_request_path

/-- Configuration file contents, restricted to what the reload task uses.
The defining `config.rs` is not under `src/`; the shape follows the spec's
configuration-file section and the uses in `src/main.rs`. -/
structure Config where
  backends : List Backend
  method_routes : List (String × String)
  proxy_timeout_secs : Nat
deriving Repr

/-- The runtime-backend rebuild of the SIGHUP reload task (src/main.rs lines
147-163): a label with an existing rich health record carries that record's
`healthy` bit into the fresh atomic flag; a new label starts healthy. -/
def reloadBackends (persistent_health_state : HealthMap)
    (new_backends : List Backend) : List RuntimeBackend :=
  new_backends.map (fun b =>
    { config := b
      healthy :=
        match HealthState.get_status persistent_health_state b.label with
        | some status => status.healthy
        | none => true })

/-- The new router state built by the reload task (src/main.rs lines 174-183):
fresh runtime backends, new routes, and the same persistent health-state
container. -/
def reloadRouterState (persistent_health_state : HealthMap) (new_config : Config) :
    RouterState :=
  { backends := reloadBackends persistent_health_state new_config.backends
    method_routes := new_config.method_routes
    health_map := persistent_health_state
    proxy_timeout_secs := new_config.proxy_timeout_secs }

/-- The initial router state built at boot (src/main.rs lines 72-93): every
backend starts with its atomic flag true. -/
def initialRouterState (config : Config) : RouterState :=
  { backends := config.backends.map (fun b => { config := b, healthy := true })
    method_routes := config.method_routes
    health_map := HealthState.new (config.backends.map (fun b => b.label))
    proxy_timeout_secs := config.proxy_timeout_secs }

/-- Spec-side cumulative walk: the winner is the first backend in
configuration order whose cumulative weight exceeds the draw `r`. -/
def cumulativePick : List RuntimeBackend → Nat → Nat → Option (String × String)
  | [], _, _ => none
  | b :: rest, r, acc =>
    if r < acc + b.config.weight then some (b.config.label, b.config.url)
    else cumulativePick rest r (acc + b.config.weight)

/-- Spec-side weighted stage, written from the claim: `none` when the healthy
set is empty, its first element when the total weight is zero, and otherwise
the first upstream in configuration order whose cumulative weight exceeds the
draw. -/
def weightedSelectSpec (healthySet : List RuntimeBackend) (r : Nat) :
    Option (String × String) :=
  if healthySet.isEmpty then none
  else
    let totalWeight : Nat := (healthySet.map (fun b => b.config.weight)).sum
    if totalWeight = 0 then
      healthySet.head?.map (fun b => (b.config.label, b.config.url))
    else
      cumulativePick healthySet r 0

/-- Spec-side statement of the `select_http` algorithm, written from the
claim: method override first (only when the named upstream exists and is
healthy), then weighted selection over the set of healthy upstreams. -/
def select_http_spec (st : RouterState) (rpc_method : Option String) (r : Nat) :
    Option (String × String) :=
  let overrideHit : Option (String × String) :=
    rpc_method.bind (fun method =>
      (alistLookup st.method_routes method).bind (fun label =>
        (st.backends.find? (fun b => b.config.label == label)).bind (fun b =>
          if b.healthy then some (b.config.label, b.config.url) else none)))
  match overrideHit with
  | some result => some result
  | none => weightedSelectSpec (st.backends.filter (fun b => b.healthy)) r

/-- Total weight of the healthy backends, as computed by `select_backend`. -/
def healthyTotalWeight (st : RouterState) : Nat :=
  ((st.backends.filter (fun b => b.healthy)).map (fun b => b.config.weight)).sum

/-- Spec-side view of what key metadata is visible through cache then store:
a cached entry wins (a tombstone meaning absent), otherwise the stored hash
counts when it exists and `active` does not read `"false"`. -/
def cachedOrStoredInfo (store : KeyRedis) (cache : KeyCache) (key : String) :
    Option KeyInfo :=
  match alistLookup cache key with
  | some entry => entry
  | none =>
    (alistLookup store key).bind (fun rec =>
      if rec.active.getD "true" == "false" then none
      else some { owner := rec.owner, rate_limit := rec.rate_limit })

/-- Spec-side effective rate limit of a visible key (0 when absent). -/
def effectiveRateLimit (store : KeyRedis) (cache : KeyCache) (key : String) : Nat :=
  ((cachedOrStoredInfo store cache key).map (fun i => i.rate_limit)).getD 0

/-! ## Concrete fixtures used by witnesses -/

/-- Sample upstream `alpha`, ws-capable. -/
def uAlpha : Backend :=
  { label := "alpha", url := "http://alpha.example", ws_url := some "ws://alpha.example",
    weight := 2 }

/-- Sample upstream `beta`, HTTP-only. -/
def uBeta : Backend :=
  { label := "beta", url := "http://beta.example", ws_url := some "ws://beta.example",
    weight := 3 }

/-- Sample routing table with both upstreams healthy. -/
def sampleState : RouterState :=
  { backends := [{ config := uAlpha, healthy := true }, { config := uBeta, healthy := true }]
    method_routes := [("getBlock", "beta")]
    health_map := HealthState.new ["alpha", "beta"]
    proxy_timeout_secs := 30 }

/-- Sample routing table where `beta` has been demoted. -/
def sampleStateDemoted : RouterState :=
  { backends := [{ config := uAlpha, healthy := true }, { config := uBeta, healthy := false }]
    method_routes := [("getBlock", "beta")]
    health_map := HealthState.new ["alpha", "beta"]
    proxy_timeout_secs := 30 }

/-- Sample health-check configuration with both thresholds at 2. -/
def sampleHealthConfig : HealthCheckConfig :=
  { interval_secs := 10, timeout_secs := 5, method := "getSlot",
    consecutive_failures_threshold := 2, consecutive_successes_threshold := 2 }

/-- Sample persistent health map remembering an outage of `alpha`. -/
def sampleHealthMap : HealthMap :=
  [("alpha",
    { healthy := false, last_check_time := some 3, consecutive_failures := 5,
      consecutive_successes := 0, last_error := some "Health check timed out after 5s" })]

/-- Sample reload configuration keeping `alpha` and introducing `beta`. -/
def sampleConfig : Config :=
  { backends := [uAlpha, uBeta]
    method_routes := [("getBlock", "beta")]
    proxy_timeout_secs := 30 }

/-- Sample credential store: `k1` active with a limit, `k2` revoked. -/
def sampleStore : KeyRedis :=
  [("k1", { owner := "alice", rate_limit := 2, active := none }),
   ("k2", { owner := "bob", rate_limit := 0, active := some "false" })]

/-! ## Lemmas about the weighted walks -/

theorem weightedWalk_eq_cumulativePick (l : List RuntimeBackend) :
    ∀ r acc, weightedWalk l r = cumulativePick l (r + acc) acc := by
  induction l with
  | nil => intro r acc; rfl
  | cons b rest ih =>
    intro r acc
    simp only [weightedWalk, cumulativePick]
    by_cases h : r < b.config.weight
    · rw [if_pos h, if_pos (by omega)]
    · rw [if_neg h, if_neg (by omega)]
      have harith : r - b.config.weight + (acc + b.config.weight) = r + acc := by omega
      rw [ih (r - b.config.weight) (acc + b.config.weight), harith]

theorem weightedWalk_isSome (l : List RuntimeBackend) :
    ∀ r, r < (l.map (fun b => b.config.weight)).sum →
      (weightedWalk l r).isSome = true := by
  induction l with
  | nil => intro r h; simp at h
  | cons b rest ih =>
    intro r h
    simp only [weightedWalk]
    by_cases hlt : r < b.config.weight
    · rw [if_pos hlt]; rfl
    · rw [if_neg hlt]
      apply ih
      simp only [List.map_cons, List.sum_cons] at h
      omega

theorem weightedWalk_mem (l : List RuntimeBackend) :
    ∀ r p, weightedWalk l r = some p →
      ∃ b, b ∈ l ∧ p = (b.config.label, b.config.url) := by
  induction l with
  | nil => intro r p h; simp [weightedWalk] at h
  | cons b rest ih =>
    intro r p h
    simp only [weightedWalk] at h
    by_cases hlt : r < b.config.weight
    · rw [if_pos hlt] at h
      exact ⟨b, List.mem_cons_self _ _, (Option.some_injective _ h).symm⟩
    · rw [if_neg hlt] at h
      obtain ⟨b', hb', hp⟩ := ih (r - b.config.weight) p h
      exact ⟨b', List.mem_cons_of_mem _ hb', hp⟩

theorem head?_mem {α : Type} {l : List α} {a : α} (h : l.head? = some a) :
    a ∈ l := by
  cases l with
  | nil => simp at h
  | cons x xs =>
    simp only [List.head?] at h
    cases h
    exact List.mem_cons_self _ _

/-! ## C1: select_http follows the specified algorithm -/

theorem weightedSelectFrom_eq_spec (hb : List RuntimeBackend) (r : Nat)
    (h : r < (hb.map (fun b => b.config.weight)).sum ∨
         (hb.map (fun b => b.config.weight)).sum = 0) :
    weightedSelectFrom hb r = weightedSelectSpec hb r := by
  simp only [weightedSelectFrom, weightedSelectSpec]
  by_cases he : hb.isEmpty
  · simp [he]
  · simp only [if_neg he]
    by_cases hw : (hb.map (fun b => b.config.weight)).sum = 0
    · simp [hw]
    · simp only [if_neg hw]
      have hr : r < (hb.map (fun b => b.config.weight)).sum := h.resolve_right hw
      have h1 := weightedWalk_eq_cumulativePick hb r 0
      rw [Nat.add_zero] at h1
      have h2 := weightedWalk_isSome hb r hr
      cases hww : weightedWalk hb r with
      | none => rw [hww] at h2; simp at h2
      | some p => rw [hww] at h1; rw [← h1]

/-- C1: `select_backend` follows the specified `select_http` algorithm.  For
every routing table and optional method, a method override naming an existing
healthy upstream returns it; otherwise, over the healthy set, the result is
`none` when the set is empty, its first element when the total weight is
zero, and for a draw `r` in `[0, W)` the first upstream in configuration
order whose cumulative weight exceeds `r`. -/
theorem select_http_follows_spec (st : RouterState) (rpc_method : Option String)
    (r : Nat) (h : r < healthyTotalWeight st ∨ healthyTotalWeight st = 0) :
    select_backend st rpc_method r = select_http_spec st rpc_method r := by
  have hcore := weightedSelectFrom_eq_spec (st.backends.filter (fun b => b.healthy)) r h
  have hover : ∀ o : Option (String × String),
      methodOverride st rpc_method = o →
      (rpc_method.bind (fun method =>
        (alistLookup st.method_routes method).bind (fun label =>
          (st.backends.find? (fun b => b.config.label == label)).bind (fun b =>
            if b.healthy then some (b.config.label, b.config.url) else none)))) = o := by
    intro o ho
    cases rpc_method with
    | none => simpa [methodOverride] using ho
    | some method =>
      cases hlk : alistLookup st.method_routes method with
      | none => simpa [methodOverride, hlk] using ho
      | some label =>
        cases hf : st.backends.find? (fun b => b.config.label == label) with
        | none => simpa [methodOverride, hlk, hf] using ho
        | some backend => simpa [methodOverride, hlk, hf] using ho
  simp only [select_backend, select_http_spec]
  cases ho : methodOverride st rpc_method with
  | some result => rw [hover _ ho]
  | none => rw [hover _ ho]; exact hcore

/-! ## C2: unhealthy upstreams are never selected -/

theorem weightedSelectFrom_healthy_source (hb : List RuntimeBackend) (r : Nat)
    (l u : String) (h : weightedSelectFrom hb r = some (l, u)) :
    ∃ b, b ∈ hb ∧ b.config.label = l ∧ b.config.url = u := by
  simp only [weightedSelectFrom] at h
  by_cases he : hb.isEmpty
  · simp [he] at h
  · simp only [if_neg he] at h
    by_cases hw : (hb.map (fun b => b.config.weight)).sum = 0
    · simp only [if_pos hw, Option.map_eq_some'] at h
      obtain ⟨b, hb', hp⟩ := h
      obtain ⟨h1, h2⟩ := Prod.mk.injEq .. ▸ hp
      exact ⟨b, head?_mem hb', h1, h2⟩
    · simp only [if_neg hw] at h
      cases hww : weightedWalk hb r with
      | some p =>
        rw [hww] at h
        obtain ⟨b, hbmem, hp⟩ := weightedWalk_mem hb r p hww
        cases h
        rw [Prod.mk.injEq] at hp
        exact ⟨b, hbmem, hp.1.symm, hp.2.symm⟩
      | none =>
        rw [hww] at h
        simp only [Option.map_eq_some'] at h
        obtain ⟨b, hb', hp⟩ := h
        obtain ⟨h1, h2⟩ := Prod.mk.injEq .. ▸ hp
        exact ⟨b, head?_mem hb', h1, h2⟩

theorem methodOverride_healthy_source (st : RouterState) (m : Option String)
    (l u : String) (h : methodOverride st m = some (l, u)) :
    ∃ b, b ∈ st.backends ∧ b.healthy = true ∧ b.config.label = l ∧
      b.config.url = u := by
  unfold methodOverride at h
  split at h
  · cases h
  · split at h
    · cases h
    · split at h
      · cases h
      · rename_i backend hf
        split at h
        · cases h
          rename_i hbh
          exact ⟨backend, List.mem_of_find?_eq_some hf, hbh, rfl, rfl⟩
        · cases h

theorem select_backend_healthy_source (st : RouterState) (m : Option String)
    (r : Nat) (l u : String) (h : select_backend st m r = some (l, u)) :
    ∃ b, b ∈ st.backends ∧ b.healthy = true ∧ b.config.label = l ∧
      b.config.url = u := by
  simp only [select_backend] at h
  cases ho : methodOverride st m with
  | some result =>
    rw [ho] at h
    cases h
    exact methodOverride_healthy_source st m l u ho
  | none =>
    rw [ho] at h
    obtain ⟨b, hbmem, h1, h2⟩ :=
      weightedSelectFrom_healthy_source (st.backends.filter (fun b => b.healthy)) r l u h
    have := List.mem_filter.mp hbmem
    exact ⟨b, this.1, this.2, h1, h2⟩

/-- C2: for every routing table with distinct labels and every upstream whose
atomic healthy flag is false, `select_backend` never returns that upstream's
(label, url), for any method argument and any random draw. -/
theorem select_http_skips_unhealthy (st : RouterState) (u : RuntimeBackend)
    (m : Option String) (r : Nat) (hmem : u ∈ st.backends)
    (hunhealthy : u.healthy = false)
    (hnodup : (st.backends.map (fun b => b.config.label)).Nodup) :
    select_backend st m r ≠ some (u.config.label, u.config.url) := by
  intro h
  obtain ⟨b, hbmem, hbh, hlab, _⟩ :=
    select_backend_healthy_source st m r u.config.label u.config.url h
  have hbu : b = u := List.inj_on_of_nodup_map hnodup hbmem hmem hlab
  rw [hbu, hunhealthy] at hbh
  exact Bool.false_ne_true hbh

/-! ## C9: select_ws never panics for positive weights -/

theorem wsWalk_no_panic (l : List RuntimeBackend)
    (hall : ∀ b ∈ l, b.config.ws_url.isSome = true) :
    ∀ r, wsWalk l r ≠ some WsPick.panic := by
  induction l with
  | nil => intro r h; simp [wsWalk] at h
  | cons b rest ih =>
    intro r h
    simp only [wsWalk] at h
    by_cases hlt : r < b.config.weight
    · rw [if_pos hlt] at h
      have hws := hall b (List.mem_cons_self _ _)
      cases hwsu : b.config.ws_url with
      | none => rw [hwsu] at hws; simp at hws
      | some u => rw [hwsu] at h; simp at h
    · rw [if_neg hlt] at h
      exact ih (fun b' hb' => hall b' (List.mem_cons_of_mem _ hb')) _ h

/-- C9: when every backend weight is at least 1, `select_ws_backend` never
panics: the empty-range draw is unreachable because a nonempty ws-capable
healthy set has positive total weight, and every `ws_url` unwrap is applied
to a backend that passed the `ws_url.is_some` filter. -/
theorem select_ws_no_panic (st : RouterState)
    (hw : ∀ b ∈ st.backends, 1 ≤ b.config.weight) (r : Nat) :
    select_ws_backend st r ≠ WsResult.panic := by
  simp only [select_ws_backend, wsSelectFrom]
  have hall : ∀ b ∈ st.backends.filter (fun b => b.config.ws_url.isSome && b.healthy),
      b.config.ws_url.isSome = true := by
    intro b hb
    have hpred := (List.mem_filter.mp hb).2
    simp only [Bool.and_eq_true] at hpred
    exact hpred.1
  have hsub : ∀ b ∈ st.backends.filter (fun b => b.config.ws_url.isSome && b.healthy),
      b ∈ st.backends := fun b hb => (List.mem_filter.mp hb).1
  by_cases he : (st.backends.filter (fun b => b.config.ws_url.isSome && b.healthy)).isEmpty
  · simp [he]
  · rw [if_neg he]
    cases hl : st.backends.filter (fun b => b.config.ws_url.isSome && b.healthy) with
    | nil => rw [hl] at he; simp at he
    | cons b0 rest =>
      have hb0mem : b0 ∈ st.backends.filter (fun b => b.config.ws_url.isSome && b.healthy) := by
        rw [hl]; exact List.mem_cons_self _ _
      have htot : ((b0 :: rest).map (fun b => b.config.weight)).sum ≠ 0 := by
        have h1 : 1 ≤ b0.config.weight := hw b0 (hsub b0 hb0mem)
        simp only [List.map_cons, List.sum_cons]
        omega
      rw [if_neg htot]
      have hallrest : ∀ b ∈ b0 :: rest, b.config.ws_url.isSome = true := by
        rw [← hl]; exact hall
      cases hwk : wsWalk (b0 :: rest) r with
      | some pk =>
        cases pk with
        | panic => exact absurd hwk (wsWalk_no_panic _ hallrest r)
        | sel lab u => simp
      | none =>
        simp only [List.head?]
        have hws := hallrest b0 (List.mem_cons_self _ _)
        cases hwsu : b0.config.ws_url with
        | none => rw [hwsu] at hws; simp at hws
        | some u => simp

/-- Witness for C1 at a concrete routing table and draw. -/
theorem select_http_follows_spec_witness :
    (1 < healthyTotalWeight sampleState ∨ healthyTotalWeight sampleState = 0) ∧
    select_backend sampleState (some "getSlot") 1 =
      select_http_spec sampleState (some "getSlot") 1 :=
  ⟨Or.inl (by decide),
   select_http_follows_spec sampleState (some "getSlot") 1 (Or.inl (by decide))⟩

/-- Witness for C2: the demoted upstream is not selected even by its own
method override. -/
theorem select_http_skips_unhealthy_witness :
    select_backend sampleStateDemoted (some "getBlock") 0 ≠
      some ("beta", "http://beta.example") :=
  select_http_skips_unhealthy sampleStateDemoted
    { config := uBeta, healthy := false } (some "getBlock") 0
    (by decide) (by decide) (by decide)

/-- Witness for C9 at a concrete routing table and draw. -/
theorem select_ws_no_panic_witness :
    select_ws_backend sampleState 7 ≠ WsResult.panic :=
  select_ws_no_panic sampleState (by decide) 7

/-! ## C3: hysteresis of the health-monitor update -/

/-- C3: the probe update is hysteretic.  A single failure following a success
does not change the published bit when the failure threshold is at least 2; a
single success during an unhealthy spell does not change it when the success
threshold is at least 2; the bit flips to unhealthy only when consecutive
failures reach the failure threshold and to healthy only when consecutive
successes reach the success threshold; a success step never demotes and a
failure step never promotes. -/
theorem health_step_hysteresis (cur : BackendHealthStatus)
    (cfg : HealthCheckConfig) (now : Nat) (e : String) :
    (2 ≤ cfg.consecutive_failures_threshold → cur.consecutive_failures = 0 →
      (healthCheckStep cur (Except.error e) cfg now).healthy = cur.healthy)
    ∧ (2 ≤ cfg.consecutive_successes_threshold → cur.healthy = false →
        cur.consecutive_successes = 0 →
        (healthCheckStep cur (Except.ok ()) cfg now).healthy = false)
    ∧ (cur.healthy = true →
        (healthCheckStep cur (Except.error e) cfg now).healthy = false →
        cfg.consecutive_failures_threshold ≤
          (healthCheckStep cur (Except.error e) cfg now).consecutive_failures)
    ∧ (cur.healthy = false →
        (healthCheckStep cur (Except.ok ()) cfg now).healthy = true →
        cfg.consecutive_successes_threshold ≤
          (healthCheckStep cur (Except.ok ()) cfg now).consecutive_successes)
    ∧ ((healthCheckStep cur (Except.ok ()) cfg now).healthy = cur.healthy ∨
        (healthCheckStep cur (Except.ok ()) cfg now).healthy = true)
    ∧ ((healthCheckStep cur (Except.error e) cfg now).healthy = cur.healthy ∨
        (healthCheckStep cur (Except.error e) cfg now).healthy = false) := by
  refine ⟨?_, ?_, ?_, ?_, ?_, ?_⟩
  · intro hFT h0
    simp only [healthCheckStep, h0]
    rw [if_neg (by omega)]
  · intro hST hH h0
    simp only [healthCheckStep, h0]
    rw [if_neg (by omega)]
    exact hH
  · intro hH hflip
    by_cases hthr : cfg.consecutive_failures_threshold ≤ cur.consecutive_failures + 1
    · simp only [healthCheckStep, if_pos hthr]
      exact hthr
    · simp only [healthCheckStep, if_neg hthr] at hflip
      rw [hH] at hflip
      exact absurd hflip (by simp)
  · intro hH hflip
    by_cases hthr : cfg.consecutive_successes_threshold ≤ cur.consecutive_successes + 1
    · simp only [healthCheckStep, if_pos hthr]
      exact hthr
    · simp only [healthCheckStep, if_neg hthr] at hflip
      rw [hH] at hflip
      exact absurd hflip (by simp)
  · by_cases hthr : cfg.consecutive_successes_threshold ≤ cur.consecutive_successes + 1
    · exact Or.inr (by simp [healthCheckStep, hthr])
    · exact Or.inl (by simp [healthCheckStep, hthr])
  · by_cases hthr : cfg.consecutive_failures_threshold ≤ cur.consecutive_failures + 1
    · exact Or.inr (by simp [healthCheckStep, hthr])
    · exact Or.inl (by simp [healthCheckStep, hthr])

/-- Witness for C3: with thresholds 2, one failure from the optimistic start
keeps the bit healthy, and one success in an unhealthy spell keeps it
unhealthy. -/
theorem health_step_hysteresis_witness :
    (healthCheckStep BackendHealthStatus.default (Except.error "probe failed")
        sampleHealthConfig 1).healthy = BackendHealthStatus.default.healthy ∧
    (healthCheckStep
        { healthy := false, last_check_time := some 3, consecutive_failures := 5,
          consecutive_successes := 0, last_error := some "probe failed" }
        (Except.ok ()) sampleHealthConfig 4).healthy = false :=
  ⟨(health_step_hysteresis BackendHealthStatus.default sampleHealthConfig 1
      "probe failed").1 (by decide) (by decide),
   (health_step_hysteresis
      { healthy := false, last_check_time := some 3, consecutive_failures := 5,
        consecutive_successes := 0, last_error := some "probe failed" }
      sampleHealthConfig 4 "probe failed").2.1 (by decide) (by decide) (by decide)⟩

/-! ## C7: hot reload preserves health history -/

/-- C7: a reload leaves the rich health map untouched, preserves backend
labels of an unchanged configuration, and every rebuilt runtime upstream
starts with the stored status's healthy bit when its label has a record, or
healthy when it is new. -/
theorem reload_preserves_health_history (hm : HealthMap) (cfg : Config)
    (old : RouterState)
    (hold : old.backends.map (fun b => b.config.label) =
            cfg.backends.map (fun b => b.label)) :
    (reloadRouterState hm cfg).health_map = hm
    ∧ (reloadRouterState hm cfg).backends.map (fun b => b.config.label) =
        old.backends.map (fun b => b.config.label)
    ∧ (∀ (i : Nat) (b : Backend), cfg.backends[i]? = some b →
        (reloadRouterState hm cfg).backends[i]? =
          some { config := b
                 healthy := ((HealthState.get_status hm b.label).map
                   (fun s => s.healthy)).getD true }) := by
  refine ⟨rfl, ?_, ?_⟩
  · simp only [reloadRouterState, reloadBackends, List.map_map]
    rw [hold]
    rfl
  · intro i b hb
    simp only [reloadRouterState, reloadBackends, List.getElem?_map, hb, Option.map_some']
    cases hs : HealthState.get_status hm b.label <;> simp [hs]

/-- Witness for C7: reloading `sampleConfig` over a map that remembers an
outage of `alpha` keeps `alpha` unhealthy and starts the new `beta` healthy. -/
theorem reload_preserves_health_history_witness :
    (reloadRouterState sampleHealthMap sampleConfig).health_map = sampleHealthMap
    ∧ (reloadRouterState sampleHealthMap sampleConfig).backends[0]? =
        some { config := uAlpha, healthy := false }
    ∧ (reloadRouterState sampleHealthMap sampleConfig).backends[1]? =
        some { config := uBeta, healthy := true } := by
  have h := reload_preserves_health_history sampleHealthMap sampleConfig
    (initialRouterState sampleConfig) (by decide)
  exact ⟨h.1, h.2.2 0 uAlpha rfl, h.2.2 1 uBeta rfl⟩

/-! ## C8: the health map's label set is fixed at construction -/

/-- C8: `update_status` with a label that has no entry leaves the map
completely unchanged, so a label introduced after construction never acquires
a stored health record. -/
theorem update_status_absent_label_noop (hm : HealthMap) (label : String)
    (status : BackendHealthStatus)
    (h : HealthState.get_status hm label = none) :
    HealthState.update_status hm label status = hm
    ∧ HealthState.get_status (HealthState.update_status hm label status) label
        = none := by
  have hfind : hm.find? (fun p => p.1 == label) = none := by
    simp only [HealthState.get_status, alistLookup, Option.map_eq_none'] at h
    exact h
  have hkey : ∀ p ∈ hm, ¬((fun p : String × BackendHealthStatus => p.1 == label) p = true) :=
    List.find?_eq_none.mp hfind
  have hmap : HealthState.update_status hm label status = hm := by
    simp only [HealthState.update_status]
    have : ∀ p ∈ hm, (if p.1 == label then (p.1, status) else p) = p := by
      intro p hp
      rw [if_neg (hkey p hp)]
    calc hm.map (fun p => if p.1 == label then (p.1, status) else p)
        = hm.map id := List.map_congr_left this
      _ = hm := List.map_id hm
  exact ⟨hmap, by rw [hmap]; exact h⟩

/-- Witness for C8: a label absent from the sample map is not inserted by
`update_status`. -/
theorem update_status_absent_label_noop_witness :
    HealthState.update_status sampleHealthMap "gamma" BackendHealthStatus.default
      = sampleHealthMap
    ∧ HealthState.get_status
        (HealthState.update_status sampleHealthMap "gamma" BackendHealthStatus.default)
        "gamma" = none :=
  update_status_absent_label_noop sampleHealthMap "gamma"
    BackendHealthStatus.default (by decide)

/-! ## Lemmas about the credential gate -/

theorem alistLookup_insert_self {α : Type} (m : List (String × α)) (k : String)
    (v : α) : alistLookup (alistInsert m k v) k = some v := by
  simp [alistLookup, alistInsert, List.find?]

theorem get_key_info_fst (store : KeyRedis) (cache : KeyCache) (key : String) :
    (get_key_info store cache key).1 = cachedOrStoredInfo store cache key := by
  simp only [get_key_info, cachedOrStoredInfo]
  cases alistLookup cache key with
  | some entry => rfl
  | none =>
    cases alistLookup store key with
    | none => rfl
    | some rec =>
      by_cases h : rec.active.getD "true" = "false"
      · simp [h]
      · simp [h]

theorem get_key_info_tombstone (store : KeyRedis) (cache : KeyCache) (key : String)
    (h : cachedOrStoredInfo store cache key = none) :
    alistLookup (get_key_info store cache key).2 key = some none := by
  simp only [get_key_info, cachedOrStoredInfo] at h ⊢
  cases hc : alistLookup cache key with
  | some entry =>
    simp only [hc] at h ⊢
    rw [h]
  | none =>
    simp only [hc] at h ⊢
    cases hs : alistLookup store key with
    | none =>
      simp only [hs]
      exact alistLookup_insert_self cache key none
    | some rec =>
      simp only [hs] at h ⊢
      by_cases ha : rec.active.getD "true" = "false"
      · simp only [ha]
        rw [if_pos (by simp)]
        exact alistLookup_insert_self cache key none
      · simp [ha] at h

theorem validate_key_fst (store : KeyRedis) (cache : KeyCache)
    (counters : RateCounters) (key : String) :
    (validate_key store cache counters key).1 =
      (match cachedOrStoredInfo store cache key with
       | none => ValidateResult.ok none
       | some info =>
         if info.rate_limit = 0 then ValidateResult.ok (some info)
         else if (alistLookup counters key).getD 0 + 1 ≤ info.rate_limit then
           ValidateResult.ok (some info)
         else ValidateResult.err "Rate limit exceeded") := by
  have hfst := get_key_info_fst store cache key
  simp only [validate_key, hfst]
  cases cachedOrStoredInfo store cache key with
  | none => rfl
  | some info =>
    simp only [check_rate_limit]
    by_cases hl : info.rate_limit = 0
    · simp [hl]
    · by_cases hcnt : (alistLookup counters key).getD 0 + 1 ≤ info.rate_limit
      · simp [hl, hcnt]
      · simp [hl, hcnt]

theorem validate_key_cache (store : KeyRedis) (cache : KeyCache)
    (counters : RateCounters) (key : String) :
    (validate_key store cache counters key).2.1 = (get_key_info store cache key).2 := by
  simp only [validate_key]
  cases (get_key_info store cache key).1 with
  | none => rfl
  | some info =>
    by_cases h : (check_rate_limit counters key info.rate_limit).1
    · simp [h]
    · simp [h]

/-! ## C4: the credential gate accepts exactly the documented keys -/

/-- C4: `validate_key` returns metadata iff the key is visible through cache
or store as active and the post-increment 1-second counter respects its rate
limit (0 meaning unlimited); an over-limit counter yields the rate-limited
outcome; an absent or inactive key yields the none outcome with a tombstone
cached. -/
theorem validate_key_contract (store : KeyRedis) (cache : KeyCache)
    (counters : RateCounters) (key : String) :
    ((∃ info, (validate_key store cache counters key).1 = ValidateResult.ok (some info))
      ↔ ((cachedOrStoredInfo store cache key).isSome = true ∧
         (effectiveRateLimit store cache key = 0 ∨
          (alistLookup counters key).getD 0 + 1 ≤ effectiveRateLimit store cache key)))
    ∧ (∀ info, (validate_key store cache counters key).1 = ValidateResult.ok (some info) →
        cachedOrStoredInfo store cache key = some info)
    ∧ ((cachedOrStoredInfo store cache key).isSome = true →
        effectiveRateLimit store cache key ≠ 0 →
        effectiveRateLimit store cache key < (alistLookup counters key).getD 0 + 1 →
        (validate_key store cache counters key).1 =
          ValidateResult.err "Rate limit exceeded")
    ∧ ((cachedOrStoredInfo store cache key).isSome = false →
        (validate_key store cache counters key).1 = ValidateResult.ok none ∧
        alistLookup (validate_key store cache counters key).2.1 key = some none) := by
  have hfst := validate_key_fst store cache counters key
  cases hco : cachedOrStoredInfo store cache key with
  | none =>
    rw [hco] at hfst
    simp only at hfst
    refine ⟨?_, ?_, ?_, ?_⟩
    · rw [hfst]
      simp
    · intro info h
      rw [hfst] at h
      simp at h
    · intro hsome
      simp at hsome
    · intro _
      refine ⟨hfst, ?_⟩
      rw [validate_key_cache]
      exact get_key_info_tombstone store cache key hco
  | some info =>
    rw [hco] at hfst
    simp only at hfst
    have hrl : effectiveRateLimit store cache key = info.rate_limit := by
      simp [effectiveRateLimit, hco]
    refine ⟨?_, ?_, ?_, ?_⟩
    · rw [hfst, hrl]
      by_cases hl : info.rate_limit = 0
      · simp [hl]
      · by_cases hcnt : (alistLookup counters key).getD 0 + 1 ≤ info.rate_limit
        · simp [hl, hcnt]
        · simp only [if_neg hl, if_neg hcnt]
          constructor
          · intro h
            obtain ⟨info2, h2⟩ := h
            simp at h2
          · intro h
            exact absurd h.2 (by simp [hl, hcnt])
    · intro info2 h
      rw [hfst] at h
      by_cases hl : info.rate_limit = 0
      · rw [if_pos hl] at h
        simp only [ValidateResult.ok.injEq, Option.some.injEq] at h
        rw [h]
      · rw [if_neg hl] at h
        by_cases hcnt : (alistLookup counters key).getD 0 + 1 ≤ info.rate_limit
        · rw [if_pos hcnt] at h
          simp only [ValidateResult.ok.injEq, Option.some.injEq] at h
          rw [h]
        · rw [if_neg hcnt] at h
          simp at h
    · intro _ hne hlt
      rw [hrl] at hne hlt
      rw [hfst, if_neg hne, if_neg (by omega)]
    · intro habs
      simp at habs

/-- Witness for C4: a third request within the same second on a key with
rate limit 2 is rejected as rate-limited. -/
theorem validate_key_contract_witness :
    (validate_key sampleStore [] [("k1", 2)] "k1").1 =
      ValidateResult.err "Rate limit exceeded" :=
  (validate_key_contract sampleStore [] [("k1", 2)] "k1").2.2.1
    (by decide) (by decide) (by decide)

/-! ## C10: a missing active field defaults to active -/

/-- C10: when the stored hash exists and its `active` field is missing or
unreadable, `get_key_info` treats the key as active, caches the metadata, and
validation proceeds past the none outcome; an explicitly stored `"false"`
caches a tombstone and yields none; any other stored value also passes. -/
theorem get_key_info_active_default (store : KeyRedis) (cache : KeyCache)
    (counters : RateCounters) (key : String) (rec : StoredKey)
    (hc : alistLookup cache key = none) (hs : alistLookup store key = some rec) :
    (rec.active = none →
      get_key_info store cache key =
        (some { owner := rec.owner, rate_limit := rec.rate_limit },
         alistInsert cache key (some { owner := rec.owner, rate_limit := rec.rate_limit }))
      ∧ (validate_key store cache counters key).1 ≠ ValidateResult.ok none)
    ∧ (∀ s, rec.active = some s → s ≠ "false" →
        get_key_info store cache key =
          (some { owner := rec.owner, rate_limit := rec.rate_limit },
           alistInsert cache key (some { owner := rec.owner, rate_limit := rec.rate_limit })))
    ∧ (rec.active = some "false" →
        get_key_info store cache key = (none, alistInsert cache key none)) := by
  refine ⟨?_, ?_, ?_⟩
  · intro ha
    have hco : cachedOrStoredInfo store cache key =
        some { owner := rec.owner, rate_limit := rec.rate_limit } := by
      simp only [cachedOrStoredInfo, hc, hs, ha, Option.getD_none, Option.some_bind]
      rw [if_neg (by decide)]
    constructor
    · simp only [get_key_info, hc, hs, ha, Option.getD_none]
      rw [if_neg (by decide)]
    · rw [validate_key_fst store cache counters key]
      simp only [hco]
      by_cases hl : rec.rate_limit = 0
      · simp [hl]
      · by_cases hcnt : (alistLookup counters key).getD 0 + 1 ≤ rec.rate_limit
        · simp [hl, hcnt]
        · simp [hl, hcnt]
  · intro s ha hne
    simp only [get_key_info, hc, hs, ha, Option.getD_some]
    rw [if_neg (by simpa [beq_iff_eq] using hne)]
  · intro ha
    simp only [get_key_info, hc, hs, ha, Option.getD_some]
    rw [if_pos (by decide)]

/-- Witness for C10: `k1` stores no active field and is served as active with
its metadata cached; `k2` stores `"false"` and caches a tombstone. -/
theorem get_key_info_active_default_witness :
    get_key_info sampleStore [] "k1" =
      (some { owner := "alice", rate_limit := 2 },
       alistInsert [] "k1" (some { owner := "alice", rate_limit := 2 }))
    ∧ get_key_info sampleStore [] "k2" = (none, alistInsert [] "k2" none) :=
  ⟨((get_key_info_active_default sampleStore [] [] "k1"
      { owner := "alice", rate_limit := 2, active := none }
      (by decide) (by decide)).1 rfl).1,
   (get_key_info_active_default sampleStore [] [] "k2"
      { owner := "bob", rate_limit := 0, active := some "false" }
      (by decide) (by decide)).2.2 rfl⟩

/-! ## C5: proxy status codes -/

/-- C5 counterexample: the claim that a 401 response implies no upstream was
contacted is false as stated, because the handler passes the upstream status
through.  With a valid key, a selected backend and an upstream that itself
answers 401, the response is a 401 obtained after contacting the upstream. -/
theorem proxy_401_passthrough_counterexample :
    (proxy { api_key := some "goodkey"
             validate := ValidateResult.ok (some { owner := "alice", rate_limit := 0 })
             selection := some ("alpha", "http://alpha.example")
             uri_ok := true
             forward := ForwardOutcome.success 401 }).status = 401
    ∧ (proxy { api_key := some "goodkey"
               validate := ValidateResult.ok (some { owner := "alice", rate_limit := 0 })
               selection := some ("alpha", "http://alpha.example")
               uri_ok := true
               forward := ForwardOutcome.success 401 }).upstream_contacted = true := by
  constructor <;> rfl

/-- C5 (amended): every response status is one of the documented codes
(401, 429, 500, 502, 503, 504) or the upstream status passed through; and a
401 implies no upstream was contacted unless the upstream itself returned
401. -/
theorem proxy_status_codes (env : ProxyEnv) :
    ((proxy env).status = 401 ∨ (proxy env).status = 429 ∨
     (proxy env).status = 500 ∨ (proxy env).status = 502 ∨
     (proxy env).status = 503 ∨ (proxy env).status = 504 ∨
     (∃ s, env.forward = ForwardOutcome.success s ∧ (proxy env).status = s))
    ∧ ((proxy env).status = 401 →
        (proxy env).upstream_contacted = false ∨
        env.forward = ForwardOutcome.success 401) := by
  obtain ⟨ak, val, sel, uok, fwd⟩ := env
  cases ak with
  | none => exact ⟨Or.inl rfl, fun _ => Or.inl rfl⟩
  | some k =>
    cases val with
    | err e =>
      by_cases he : (e == "Rate limit exceeded") = true
      · refine ⟨Or.inr (Or.inl ?_), fun h => ?_⟩
        · simp [proxy, he]
        · simp [proxy, he] at h
      · refine ⟨Or.inr (Or.inr (Or.inl ?_)), fun h => ?_⟩
        · simp [proxy, he]
        · simp [proxy, he] at h
    | ok io =>
      cases io with
      | none => exact ⟨Or.inl rfl, fun _ => Or.inl rfl⟩
      | some info =>
        cases sel with
        | none =>
          refine ⟨Or.inr (Or.inr (Or.inr (Or.inr (Or.inl rfl)))), fun h => ?_⟩
          simp [proxy] at h
        | some p =>
          cases uok with
          | false =>
            refine ⟨Or.inr (Or.inr (Or.inl rfl)), fun h => ?_⟩
            simp [proxy] at h
          | true =>
            cases fwd with
            | success s =>
              refine ⟨Or.inr (Or.inr (Or.inr (Or.inr (Or.inr (Or.inr ⟨s, rfl, rfl⟩))))),
                fun h => Or.inr ?_⟩
              simp only [proxy] at h
              simp at h
              rw [h]
            | transportError msg =>
              refine ⟨Or.inr (Or.inr (Or.inr (Or.inl rfl))), fun h => ?_⟩
              simp [proxy] at h
            | timedOut =>
              refine ⟨Or.inr (Or.inr (Or.inr (Or.inr (Or.inr (Or.inl rfl))))), fun h => ?_⟩
              simp [proxy] at h

/-- Witness for C5 (amended) at a concrete rate-limited request. -/
theorem proxy_status_codes_witness :
    ((proxy { api_key := some "limitedkey"
              validate := ValidateResult.err "Rate limit exceeded"
              selection := none
              uri_ok := true
              forward := ForwardOutcome.timedOut }).status = 401 ∨
     (proxy { api_key := some "limitedkey"
              validate := ValidateResult.err "Rate limit exceeded"
              selection := none
              uri_ok := true
              forward := ForwardOutcome.timedOut }).status = 429 ∨
     (proxy { api_key := some "limitedkey"
              validate := ValidateResult.err "Rate limit exceeded"
              selection := none
              uri_ok := true
              forward := ForwardOutcome.timedOut }).status = 500 ∨
     (proxy { api_key := some "limitedkey"
              validate := ValidateResult.err "Rate limit exceeded"
              selection := none
              uri_ok := true
              forward := ForwardOutcome.timedOut }).status = 502 ∨
     (proxy { api_key := some "limitedkey"
              validate := ValidateResult.err "Rate limit exceeded"
              selection := none
              uri_ok := true
              forward := ForwardOutcome.timedOut }).status = 503 ∨
     (proxy { api_key := some "limitedkey"
              validate := ValidateResult.err "Rate limit exceeded"
              selection := none
              uri_ok := true
              forward := ForwardOutcome.timedOut }).status = 504 ∨
     (∃ s, ForwardOutcome.timedOut = ForwardOutcome.success s ∧
       (proxy { api_key := some "limitedkey"
                validate := ValidateResult.err "Rate limit exceeded"
                selection := none
                uri_ok := true
                forward := ForwardOutcome.timedOut }).status = s)) :=
  (proxy_status_codes
    { api_key := some "limitedkey"
      validate := ValidateResult.err "Rate limit exceeded"
      selection := none
      uri_ok := true
      forward := ForwardOutcome.timedOut }).1

/-! ## C6: the outbound URI rewrite -/

/-- C6 counterexample: a bare inbound `/` with no query does not yield the
backend URL unchanged when that URL ends with a slash; the code strips the
trailing slashes. -/
theorem build_uri_bare_slash_counterexample :
    buildBackendUri "http://alpha.example/v1/" "/" none = "http://alpha.example/v1"
    ∧ buildBackendUri "http://alpha.example/v1/" "/" none ≠ "http://alpha.example/v1/" := by
  constructor
  · rfl
  · decide

/-- C6 (amended): the outbound URI is the backend URL joined with the inbound
path and query after removing every `api-key=` parameter and keeping the
others; the path's leading slash is dropped when the backend URL ends with a
slash, and a bare inbound `/` with no remaining query yields the backend URL
with its trailing slashes removed and no suffix appended. -/
theorem build_uri_join (backend_url path : String) (query : Option String) :
    (cleanedRequestPath path query = "/" →
      buildBackendUri backend_url path query = trimEndSlashes backend_url)
    ∧ (cleanedRequestPath path query ≠ "/" →
        strEndsWith backend_url "/" = true →
        strStartsWith (cleanedRequestPath path query) "/" = true →
        buildBackendUri backend_url path query =
          backend_url ++ strDrop (cleanedRequestPath path query) 1)
    ∧ (cleanedRequestPath path query ≠ "/" →
        (strEndsWith backend_url "/" && strStartsWith (cleanedRequestPath path query) "/") = false →
        buildBackendUri backend_url path query =
          backend_url ++ cleanedRequestPath path query)
    ∧ (query = none → cleanedRequestPath path query = path)
    ∧ (∀ q, query = some q →
        cleanedRequestPath path query =
          (if stripApiKeyParams q = "" then path
           else path ++ "?" ++ stripApiKeyParams q)) := by
  refine ⟨?_, ?_, ?_, ?_, ?_⟩
  · intro h
    simp only [buildBackendUri]
    rw [if_pos h]
  · intro h1 h2 h3
    simp only [buildBackendUri]
    rw [if_neg h1, if_pos (by rw [h2, h3]; rfl)]
  · intro h1 h2
    simp only [buildBackendUri]
    rw [if_neg h1, if_neg (by rw [h2]; simp)]
  · intro h
    rw [h]
    rfl
  · intro q h
    rw [h]
    simp only [cleanedRequestPath, Option.map_some', Option.getD_some]

/-- Witness for C6 (amended): joining with leading-slash stripping on a
backend URL that ends with a slash, with the `api-key` parameter removed and
the other parameter kept. -/
theorem build_uri_join_witness :
    buildBackendUri "http://alpha.example/" "/v1" (some "a=1&api-key=secret") =
      "http://alpha.example/" ++
        strDrop (cleanedRequestPath "/v1" (some "a=1&api-key=secret")) 1 :=
  (build_uri_join "http://alpha.example/" "/v1" (some "a=1&api-key=secret")).2.1
    (by decide) (by decide) (by decide)

end SolRpcRouter
